import Mathlib

/-!
Verification of the shopping-cart state holder from
`src/context/ShoppingCartContext.tsx`.

The cart state is a list of `CartItem` records (`id`, `quantity`), both
JavaScript numbers, embedded here as `Int`.  The five pure operations of
the source are embedded directly:

* `getItemQuantity` — `cartItems.find(item => item.id === id)?.quantity || 0`;
  note the `|| 0`, which coerces a falsy (zero) stored quantity to `0`.
* `increaseCartQuantity` — append `{id, quantity: 1}` when absent, else map
  `quantity + 1` onto the matching record.
* `decreaseCartQuantity` — when the found record's quantity is exactly `1`,
  filter it out; otherwise map `quantity - 1` onto the matching record
  (a no-op when the id is absent, since the map matches nothing).
* `removeFromCart` — filter out every record with the given id.
* `cartQuantity` — `reduce((quantity, item) => item.quantity + quantity, 0)`.

`applyOp` / `runOps` model sequences of the UI-triggered operations
(open, close, increase, decrease, remove) from the initial empty cart.
-/

structure CartItem where
  id : Int
  quantity : Int
deriving DecidableEq, Repr

/-- `cartItems.find(item => item.id === id)?.quantity || 0`: the quantity of
the first matching item, with a falsy (zero) quantity coerced to `0`, and
`0` when no item matches. -/
def getItemQuantity (cartItems : List CartItem) (id : Int) : Int :=
  match cartItems.find? (fun item => item.id == id) with
  | none => 0
  | some item => if item.quantity == 0 then 0 else item.quantity

/-- `increaseCartQuantity`: append a fresh `{id, quantity: 1}` when no item
matches, else increment the quantity of every matching item in place. -/
def increaseCartQuantity (id : Int) (currItems : List CartItem) : List CartItem :=
  match currItems.find? (fun item => item.id == id) with
  | none => currItems ++ [{ id := id, quantity := 1 }]
  | some _ =>
    currItems.map (fun item =>
      if item.id == id then { item with quantity := item.quantity + 1 } else item)

/-- `decreaseCartQuantity`: when `find(...)?.quantity === 1`, filter the id
out; otherwise decrement the quantity of every matching item in place. -/
def decreaseCartQuantity (id : Int) (currItems : List CartItem) : List CartItem :=
  if (currItems.find? (fun item => item.id == id)).map CartItem.quantity = some 1 then
    currItems.filter (fun item => !(item.id == id))
  else
    currItems.map (fun item =>
      if item.id == id then { item with quantity := item.quantity - 1 } else item)

/-- `removeFromCart`: filter out every item with the given id. -/
def removeFromCart (id : Int) (currItems : List CartItem) : List CartItem :=
  currItems.filter (fun item => !(item.id == id))

/-- `cartItems.reduce((quantity, item) => item.quantity + quantity, 0)`. -/
def cartQuantity (cartItems : List CartItem) : Int :=
  cartItems.foldl (fun quantity item => item.quantity + quantity) 0

/-- The provider state: visibility flag plus the entry list. -/
structure CartState where
  isOpen : Bool
  cartItems : List CartItem
deriving DecidableEq, Repr

/-- The five UI-triggered operations exposed by the context. -/
inductive CartOp where
  | openCart : CartOp
  | closeCart : CartOp
  | increase : Int → CartOp
  | decrease : Int → CartOp
  | remove : Int → CartOp
deriving DecidableEq, Repr

/-- One operation applied to the provider state. -/
def applyOp (s : CartState) : CartOp → CartState
  | .openCart => { s with isOpen := true }
  | .closeCart => { s with isOpen := false }
  | .increase id => { s with cartItems := increaseCartQuantity id s.cartItems }
  | .decrease id => { s with cartItems := decreaseCartQuantity id s.cartItems }
  | .remove id => { s with cartItems := removeFromCart id s.cartItems }

/-- A sequence of operations run from the initial state (closed, empty cart). -/
def runOps (ops : List CartOp) : CartState :=
  ops.foldl applyOp { isOpen := false, cartItems := [] }

/-- No two entries of the list share an `id`. -/
def UniqueIds (l : List CartItem) : Prop :=
  (l.map CartItem.id).Nodup

/-- Every entry of the list has `quantity ≥ 1`. -/
def PosQuantities (l : List CartItem) : Prop :=
  ∀ e ∈ l, 1 ≤ e.quantity

/-- The cart invariant: unique ids and positive quantities. -/
def CartInv (l : List CartItem) : Prop :=
  UniqueIds l ∧ PosQuantities l

instance : DecidablePred UniqueIds := fun l =>
  inferInstanceAs (Decidable (l.map CartItem.id).Nodup)

instance : DecidablePred PosQuantities := fun l =>
  inferInstanceAs (Decidable (∀ e ∈ l, 1 ≤ e.quantity))

instance : DecidablePred CartInv := fun l =>
  inferInstanceAs (Decidable (UniqueIds l ∧ PosQuantities l))

/-! ### Helper lemmas -/

lemma cartQuantity_foldl (a : Int) (l : List CartItem) :
    l.foldl (fun quantity item => item.quantity + quantity) a
      = a + (l.map CartItem.quantity).sum := by
  induction l generalizing a with
  | nil => simp
  | cons e t ih => simp only [List.foldl_cons, List.map_cons, List.sum_cons, ih]; omega

lemma find?_id_eq {i : Int} {l : List CartItem} {e : CartItem}
    (h : l.find? (fun item => item.id == i) = some e) : e.id = i := by
  simpa using List.find?_some h

lemma find?_none_iff {i : Int} {l : List CartItem} :
    l.find? (fun item => item.id == i) = none ↔ ∀ x ∈ l, ¬ x.id = i := by
  rw [List.find?_eq_none]
  constructor
  · intro h x hx
    have := h x hx
    simpa using this
  · intro h x hx
    simpa using h x hx

lemma uniq_find? {i : Int} {l : List CartItem} {e : CartItem}
    (hu : UniqueIds l) (he : e ∈ l) (hi : e.id = i) :
    l.find? (fun item => item.id == i) = some e := by
  induction l with
  | nil => cases he
  | cons a t ih =>
    have hu' : UniqueIds t ∧ a.id ∉ t.map CartItem.id := by
      unfold UniqueIds at hu ⊢
      simp only [List.map_cons, List.nodup_cons] at hu
      exact ⟨hu.2, hu.1⟩
    rw [List.find?_cons]
    split
    · rename_i hai
      rcases List.mem_cons.mp he with rfl | het
      · rfl
      · exfalso
        apply hu'.2
        have hai' : a.id = i := by simpa using hai
        rw [hai', ← hi]
        exact List.mem_map_of_mem CartItem.id het
    · rename_i hai
      rcases List.mem_cons.mp he with rfl | het
      · rw [hi] at hai
        simp at hai
      · exact ih hu'.1 het

lemma map_pres_ids (f : CartItem → CartItem) (hid : ∀ e, (f e).id = e.id)
    (l : List CartItem) :
    (l.map f).map CartItem.id = l.map CartItem.id := by
  rw [List.map_map]
  exact List.map_congr_left (fun a _ => hid a)

lemma find?_map_pres (i : Int) (f : CartItem → CartItem) (hid : ∀ e, (f e).id = e.id)
    (l : List CartItem) :
    (l.map f).find? (fun item => item.id == i)
      = (l.find? (fun item => item.id == i)).map f := by
  have hp : ((fun item => item.id == i) ∘ f) = (fun item => item.id == i) := by
    funext e
    simp [Function.comp, hid]
  rw [List.find?_map, hp]

lemma filter_nonmatch_map (i : Int) (f : CartItem → CartItem)
    (hid : ∀ e, (f e).id = e.id) (hnm : ∀ e, ¬ e.id = i → f e = e)
    (l : List CartItem) :
    (l.map f).filter (fun item => !(item.id == i))
      = l.filter (fun item => !(item.id == i)) := by
  induction l with
  | nil => rfl
  | cons a t ih =>
    simp only [List.map_cons, List.filter_cons]
    by_cases h : a.id = i
    · simp [hid, h, ih]
    · simp [hid, h, ih, hnm a h]

lemma inc_fun_id (i : Int) (e : CartItem) :
    ((fun item =>
        if item.id == i then { item with quantity := item.quantity + 1 } else item) e).id
      = e.id := by
  by_cases h : e.id == i <;> simp [h]

lemma dec_fun_id (i : Int) (e : CartItem) :
    ((fun item =>
        if item.id == i then { item with quantity := item.quantity - 1 } else item) e).id
      = e.id := by
  by_cases h : e.id == i <;> simp [h]

lemma uniqueIds_increase (i : Int) (l : List CartItem) (h : UniqueIds l) :
    UniqueIds (increaseCartQuantity i l) := by
  unfold increaseCartQuantity
  cases hf : l.find? (fun item => item.id == i) with
  | none =>
    have habs : ∀ x ∈ l, ¬ x.id = i := find?_none_iff.mp hf
    unfold UniqueIds at h ⊢
    rw [List.map_append, List.nodup_append]
    refine ⟨h, by simp, ?_⟩
    intro a ha hb
    simp only [List.map_cons, List.map_nil, List.mem_singleton] at hb
    obtain ⟨x, hx, hxa⟩ := List.mem_map.mp ha
    exact habs x hx (by rw [hxa, hb])
  | some e =>
    unfold UniqueIds at h ⊢
    rw [map_pres_ids _ (inc_fun_id i)]
    exact h

lemma uniqueIds_decrease (i : Int) (l : List CartItem) (h : UniqueIds l) :
    UniqueIds (decreaseCartQuantity i l) := by
  unfold decreaseCartQuantity
  split
  · exact List.Nodup.sublist ((List.filter_sublist l).map CartItem.id) h
  · unfold UniqueIds at h ⊢
    rw [map_pres_ids _ (dec_fun_id i)]
    exact h

lemma uniqueIds_remove (i : Int) (l : List CartItem) (h : UniqueIds l) :
    UniqueIds (removeFromCart i l) :=
  List.Nodup.sublist ((List.filter_sublist l).map CartItem.id) h

lemma posQuantities_increase (i : Int) (l : List CartItem) (h : PosQuantities l) :
    PosQuantities (increaseCartQuantity i l) := by
  unfold increaseCartQuantity
  cases hf : l.find? (fun item => item.id == i) with
  | none =>
    intro e he
    rcases List.mem_append.mp he with he | he
    · exact h e he
    · simp only [List.mem_singleton] at he
      rw [he]
  | some _ =>
    intro e he
    obtain ⟨a, ha, rfl⟩ := List.mem_map.mp he
    by_cases hc : a.id = i
    · have := h a ha
      simp only [hc, beq_self_eq_true, if_true]
      omega
    · simp only [hc, beq_iff_eq, if_false]
      exact h a ha

lemma posQuantities_decrease (i : Int) (l : List CartItem) (h : CartInv l) :
    PosQuantities (decreaseCartQuantity i l) := by
  obtain ⟨hu, hp⟩ := h
  unfold decreaseCartQuantity
  split
  · intro e he
    exact hp e (List.mem_of_mem_filter he)
  · rename_i hcond
    intro e he
    obtain ⟨a, ha, rfl⟩ := List.mem_map.mp he
    by_cases hc : a.id = i
    · have hfa : l.find? (fun item => item.id == i) = some a := uniq_find? hu ha hc
      have hq : ¬ a.quantity = 1 := by
        intro h1
        exact hcond (by rw [hfa]; simp [h1])
      have := hp a ha
      simp only [hc, beq_self_eq_true, if_true]
      omega
    · simp only [hc, beq_iff_eq, if_false]
      exact hp a ha

lemma posQuantities_remove (i : Int) (l : List CartItem) (h : PosQuantities l) :
    PosQuantities (removeFromCart i l) := fun e he =>
  h e (List.mem_of_mem_filter he)

lemma cartInv_applyOp (s : CartState) (op : CartOp) (h : CartInv s.cartItems) :
    CartInv (applyOp s op).cartItems := by
  cases op with
  | openCart => exact h
  | closeCart => exact h
  | increase i => exact ⟨uniqueIds_increase i _ h.1, posQuantities_increase i _ h.2⟩
  | decrease i => exact ⟨uniqueIds_decrease i _ h.1, posQuantities_decrease i _ h⟩
  | remove i => exact ⟨uniqueIds_remove i _ h.1, posQuantities_remove i _ h.2⟩

lemma cartInv_foldl (ops : List CartOp) (s : CartState) (h : CartInv s.cartItems) :
    CartInv (ops.foldl applyOp s).cartItems := by
  induction ops generalizing s with
  | nil => exact h
  | cons op t ih => exact ih _ (cartInv_applyOp s op h)

lemma cartInv_runOps (ops : List CartOp) : CartInv (runOps ops).cartItems :=
  cartInv_foldl ops _ (by constructor <;> simp [UniqueIds, PosQuantities])

lemma increase_of_none {i : Int} {l : List CartItem}
    (hf : l.find? (fun item => item.id == i) = none) :
    increaseCartQuantity i l = l ++ [{ id := i, quantity := 1 }] := by
  unfold increaseCartQuantity
  rw [hf]

lemma increase_of_some {i : Int} {l : List CartItem} {e : CartItem}
    (hf : l.find? (fun item => item.id == i) = some e) :
    increaseCartQuantity i l
      = l.map (fun item =>
          if item.id == i then { item with quantity := item.quantity + 1 } else item) := by
  unfold increaseCartQuantity
  rw [hf]

lemma decrease_of_one {i : Int} {l : List CartItem}
    (h : (l.find? (fun item => item.id == i)).map CartItem.quantity = some 1) :
    decreaseCartQuantity i l = l.filter (fun item => !(item.id == i)) := by
  unfold decreaseCartQuantity
  rw [if_pos h]

lemma decrease_of_not_one {i : Int} {l : List CartItem}
    (h : ¬ (l.find? (fun item => item.id == i)).map CartItem.quantity = some 1) :
    decreaseCartQuantity i l
      = l.map (fun item =>
          if item.id == i then { item with quantity := item.quantity - 1 } else item) := by
  unfold decreaseCartQuantity
  rw [if_neg h]

lemma filter_no_match {i : Int} {l : List CartItem} (h : ∀ x ∈ l, ¬ x.id = i) :
    l.filter (fun item => !(item.id == i)) = l :=
  List.filter_eq_self.mpr (fun a ha => by simpa using h a ha)

lemma map_no_match {i : Int} (g : CartItem → CartItem) {l : List CartItem}
    (h : ∀ x ∈ l, ¬ x.id = i) :
    l.map (fun item => if item.id == i then g item else item) = l := by
  have h1 : l.map (fun item => if item.id == i then g item else item)
      = l.map (fun item => item) :=
    List.map_congr_left (fun a ha => by simp [h a ha])
  simpa using h1

lemma split_no_match {i : Int} {l1 l2 : List CartItem} {e : CartItem}
    (hu : UniqueIds (l1 ++ e :: l2)) (hi : e.id = i) :
    (∀ x ∈ l1, ¬ x.id = i) ∧ (∀ x ∈ l2, ¬ x.id = i) := by
  unfold UniqueIds at hu
  rw [List.map_append, List.map_cons, List.nodup_middle, List.nodup_cons] at hu
  have hnotin : e.id ∉ l1.map CartItem.id ++ l2.map CartItem.id := hu.1
  constructor
  · intro x hx hxi
    apply hnotin
    rw [List.mem_append]
    exact Or.inl (by rw [hi, ← hxi]; exact List.mem_map_of_mem _ hx)
  · intro x hx hxi
    apply hnotin
    rw [List.mem_append]
    exact Or.inr (by rw [hi, ← hxi]; exact List.mem_map_of_mem _ hx)

lemma find?_split {i : Int} {l1 l2 : List CartItem} {e : CartItem}
    (h1 : ∀ x ∈ l1, ¬ x.id = i) (hi : e.id = i) :
    (l1 ++ e :: l2).find? (fun item => item.id == i) = some e := by
  rw [List.find?_append, find?_none_iff.mpr h1]
  simp [List.find?_cons, hi]

lemma countP_match_one {i : Int} {l : List CartItem} {e : CartItem}
    (hu : UniqueIds l) (hf : l.find? (fun item => item.id == i) = some e) :
    l.countP (fun item => item.id == i) = 1 := by
  obtain ⟨hpe, l1, l2, rfl, hl1⟩ := List.find?_eq_some.mp hf
  have hie : e.id = i := by simpa using hpe
  have hnm := split_no_match hu hie
  rw [List.countP_append, List.countP_cons]
  have h1 : l1.countP (fun item => item.id == i) = 0 :=
    List.countP_eq_zero.mpr (fun a ha => by simpa using hnm.1 a ha)
  have h2 : l2.countP (fun item => item.id == i) = 0 :=
    List.countP_eq_zero.mpr (fun a ha => by simpa using hnm.2 a ha)
  simp [h1, h2, hpe]

-- sanity checks against the spec scenarios
example : increaseCartQuantity 5 [] = [⟨5, 1⟩] := by decide
example : increaseCartQuantity 5 [⟨5, 1⟩] = [⟨5, 2⟩] := by decide
example : decreaseCartQuantity 5 [⟨5, 1⟩] = [] := by decide
example : decreaseCartQuantity 5 [⟨5, 3⟩] = [⟨5, 2⟩] := by decide
example : removeFromCart 5 [⟨5, 2⟩, ⟨7, 1⟩] = [⟨7, 1⟩] := by decide
example : cartQuantity [⟨5, 2⟩, ⟨7, 1⟩] = 3 := by decide
example : getItemQuantity [⟨5, 2⟩] 99 = 0 := by decide
example : getItemQuantity [⟨5, 0⟩] 5 = 0 := by decide
example : getItemQuantity [⟨5, -3⟩] 5 = -3 := by decide
example : decreaseCartQuantity 5 [⟨7, 1⟩] = [⟨7, 1⟩] := by decide

lemma dec_inc_cancel (i : Int) (a : CartItem) :
    (fun item =>
        if item.id == i then { item with quantity := item.quantity - 1 } else item)
      ((fun item =>
          if item.id == i then { item with quantity := item.quantity + 1 } else item) a)
      = a := by
  by_cases hc : (a.id == i) = true
  · have h1 : ((fun item =>
        if item.id == i then { item with quantity := item.quantity + 1 } else item) a)
        = { id := a.id, quantity := a.quantity + 1 } := by simp [hc]
    rw [h1]
    have h2 : (({ id := a.id, quantity := a.quantity + 1 } : CartItem).id == i) = true := hc
    simp only [h2, if_true]
    have h3 : a.quantity + 1 - 1 = a.quantity := by omega
    rw [h3]
  · have hc1 : (a.id == i) = false := by simpa using hc
    simp [hc1]

/-! ### Claim theorems -/

/-- C1: starting from any entry list with pairwise-distinct item ids, each of
the operations (increase, decrease, remove, open, close) produces a list with
pairwise-distinct item ids; hence every operation sequence from the initial
empty cart yields an entries list in which no two records share an id. -/
theorem uniqueness_invariant :
    (∀ s : CartState, UniqueIds s.cartItems →
      ∀ op : CartOp, UniqueIds (applyOp s op).cartItems)
    ∧ (∀ ops : List CartOp, UniqueIds (runOps ops).cartItems) := by
  constructor
  · intro s h op
    cases op with
    | openCart => exact h
    | closeCart => exact h
    | increase i => exact uniqueIds_increase i _ h
    | decrease i => exact uniqueIds_decrease i _ h
    | remove i => exact uniqueIds_remove i _ h
  · intro ops
    exact (cartInv_runOps ops).1

/-- Witness for C1 at a concrete state and a concrete operation sequence. -/
theorem uniqueness_invariant_witness :
    UniqueIds (applyOp { isOpen := false, cartItems := [⟨5, 2⟩, ⟨7, 1⟩] }
      (CartOp.increase 5)).cartItems
    ∧ UniqueIds (runOps [CartOp.increase 5, CartOp.increase 7,
        CartOp.increase 5]).cartItems :=
  ⟨uniqueness_invariant.1 { isOpen := false, cartItems := [⟨5, 2⟩, ⟨7, 1⟩] }
      (by decide) (CartOp.increase 5),
   uniqueness_invariant.2 [CartOp.increase 5, CartOp.increase 7, CartOp.increase 5]⟩

/-- C2: every operation sequence from the initial empty cart yields an entries
list in which every present entry has quantity ≥ 1; no operation leaves an
entry with quantity 0 or a negative quantity in the list. -/
theorem nonnegativity_invariant (ops : List CartOp) :
    ∀ e ∈ (runOps ops).cartItems, 1 ≤ e.quantity :=
  (cartInv_runOps ops).2

/-- Witness for C2: after increasing id 5 twice from the empty cart, the
entry `{5, 2}` is present and its quantity is ≥ 1. -/
theorem nonnegativity_invariant_witness :
    (⟨5, 2⟩ : CartItem) ∈ (runOps [CartOp.increase 5, CartOp.increase 5]).cartItems
    ∧ 1 ≤ (⟨5, 2⟩ : CartItem).quantity :=
  ⟨by decide,
   nonnegativity_invariant [CartOp.increase 5, CartOp.increase 5] ⟨5, 2⟩ (by decide)⟩

/-- C3: on a list with unique ids, after `increaseCartQuantity i` exactly one
entry with id `i` exists; when no entry with id `i` existed, the new entry is
appended with quantity 1; when one existed, it now carries its prior quantity
plus one. -/
theorem increase_postcondition (l : List CartItem) (i : Int) (h : UniqueIds l) :
    (increaseCartQuantity i l).countP (fun item => item.id == i) = 1
    ∧ (l.find? (fun item => item.id == i) = none →
        increaseCartQuantity i l = l ++ [{ id := i, quantity := 1 }])
    ∧ (∀ e, l.find? (fun item => item.id == i) = some e →
        (increaseCartQuantity i l).find? (fun item => item.id == i)
          = some { id := e.id, quantity := e.quantity + 1 }) := by
  refine ⟨?_, fun hf => increase_of_none hf, ?_⟩
  · cases hf : l.find? (fun item => item.id == i) with
    | none =>
      rw [increase_of_none hf, List.countP_append]
      have h0 : l.countP (fun item => item.id == i) = 0 :=
        List.countP_eq_zero.mpr (fun a ha => by simpa using find?_none_iff.mp hf a ha)
      simp [h0, List.countP_cons]
    | some e =>
      rw [increase_of_some hf, List.countP_map]
      have hcomp : ((fun item => item.id == i) ∘ (fun (item : CartItem) =>
          if item.id == i then { item with quantity := item.quantity + 1 } else item))
          = (fun item => item.id == i) := by
        funext a
        by_cases hc : a.id = i <;> simp [Function.comp, hc]
      rw [hcomp]
      exact countP_match_one h hf
  · intro e hf
    have hi : e.id = i := find?_id_eq hf
    rw [increase_of_some hf, find?_map_pres i _ (inc_fun_id i) l, hf]
    simp [hi]

/-- Witness for C3 on the cart `[{5, 1}]` with id 5. -/
theorem increase_postcondition_witness :
    (increaseCartQuantity 5 [⟨5, 1⟩]).countP (fun item => item.id == 5) = 1
    ∧ (increaseCartQuantity 5 [⟨5, 1⟩]).find? (fun item => item.id == 5)
        = some { id := 5, quantity := 1 + 1 } :=
  ⟨(increase_postcondition [⟨5, 1⟩] 5 (by decide)).1,
   (increase_postcondition [⟨5, 1⟩] 5 (by decide)).2.2 ⟨5, 1⟩ (by decide)⟩

/-- C4: on a list satisfying the invariants, `decreaseCartQuantity i` removes
the matching entry entirely when its quantity is exactly 1, replaces it in
place with quantity minus one otherwise, and is a no-op when no entry with id
`i` exists. -/
theorem decrease_behaviour (l : List CartItem) (i : Int) (h : CartInv l) :
    (l.find? (fun item => item.id == i) = none → decreaseCartQuantity i l = l)
    ∧ (∀ l1 e l2, l = l1 ++ e :: l2 → e.id = i →
        (e.quantity = 1 → decreaseCartQuantity i l = l1 ++ l2)
        ∧ (¬ e.quantity = 1 →
            decreaseCartQuantity i l
              = l1 ++ { id := e.id, quantity := e.quantity - 1 } :: l2)) := by
  constructor
  · intro hf
    have habs := find?_none_iff.mp hf
    have hnot1 : ¬ (l.find? (fun item => item.id == i)).map CartItem.quantity
        = some 1 := by
      rw [hf]
      simp
    rw [decrease_of_not_one hnot1]
    exact map_no_match _ habs
  · intro l1 e l2 hsplit hie
    subst hsplit
    have hnm := split_no_match h.1 hie
    have hfind := @find?_split i l1 l2 e hnm.1 hie
    constructor
    · intro hq1
      rw [decrease_of_one (by rw [hfind]; simp [hq1])]
      rw [List.filter_append, filter_no_match hnm.1, List.filter_cons]
      have hc : (!(e.id == i)) = false := by simp [hie]
      rw [hc]
      simp [filter_no_match hnm.2]
    · intro hq1
      have hnot1 : ¬ (((l1 ++ e :: l2).find? (fun item => item.id == i)).map
          CartItem.quantity) = some 1 := by
        rw [hfind]
        simpa using hq1
      rw [decrease_of_not_one hnot1, List.map_append, List.map_cons]
      rw [map_no_match _ hnm.1, map_no_match _ hnm.2]
      have hc : (e.id == i) = true := by simp [hie]
      rw [hc]
      simp

/-- Witness for C4: decreasing id 5 on `[{5, 1}, {7, 2}]` deletes the entry. -/
theorem decrease_behaviour_witness :
    decreaseCartQuantity 5 [⟨5, 1⟩, ⟨7, 2⟩] = [] ++ [⟨7, 2⟩] :=
  ((decrease_behaviour [⟨5, 1⟩, ⟨7, 2⟩] 5 (by decide)).2
    [] ⟨5, 1⟩ [⟨7, 2⟩] rfl rfl).1 rfl

/-- C5: on a list satisfying the invariants, decreasing an id immediately
after increasing it restores the original list, both when an entry for the id
already existed (quantity ≥ 1) and when none existed. -/
theorem increase_decrease_inverse (l : List CartItem) (i : Int) (h : CartInv l) :
    decreaseCartQuantity i (increaseCartQuantity i l) = l := by
  obtain ⟨hu, hp⟩ := h
  cases hf : l.find? (fun item => item.id == i) with
  | none =>
    rw [increase_of_none hf]
    have habs := find?_none_iff.mp hf
    have hfind : (l ++ [({ id := i, quantity := 1 } : CartItem)]).find?
        (fun item => item.id == i) = some { id := i, quantity := 1 } :=
      find?_split habs rfl
    rw [decrease_of_one (by rw [hfind]; rfl)]
    rw [List.filter_append, filter_no_match habs]
    simp
  | some e =>
    have hi : e.id = i := find?_id_eq hf
    have hmem : e ∈ l := List.mem_of_find?_eq_some hf
    rw [increase_of_some hf]
    have hfe : (l.map (fun item =>
        if item.id == i then { item with quantity := item.quantity + 1 } else item)).find?
        (fun item => item.id == i)
        = some { id := e.id, quantity := e.quantity + 1 } := by
      rw [find?_map_pres i _ (inc_fun_id i) l, hf]
      simp [hi]
    have hnot1 : ¬ ((l.map (fun item =>
        if item.id == i then { item with quantity := item.quantity + 1 } else item)).find?
        (fun item => item.id == i)).map CartItem.quantity = some 1 := by
      rw [hfe]
      have := hp e hmem
      simp
      omega
    rw [decrease_of_not_one hnot1, List.map_map]
    have h1 : l.map ((fun item =>
        if item.id == i then { item with quantity := item.quantity - 1 } else item) ∘
        (fun item =>
          if item.id == i then { item with quantity := item.quantity + 1 } else item))
        = l.map (fun a => a) := List.map_congr_left (fun a _ => dec_inc_cancel i a)
    rw [h1]
    simp

/-- Witness for C5 on the cart `[{5, 2}]` with id 5 (existing entry) and on
the same cart with id 9 (absent entry). -/
theorem increase_decrease_inverse_witness :
    decreaseCartQuantity 5 (increaseCartQuantity 5 [⟨5, 2⟩]) = [⟨5, 2⟩]
    ∧ decreaseCartQuantity 9 (increaseCartQuantity 9 [⟨5, 2⟩]) = [⟨5, 2⟩] :=
  ⟨increase_decrease_inverse [⟨5, 2⟩] 5 (by decide),
   increase_decrease_inverse [⟨5, 2⟩] 9 (by decide)⟩

/-- C6: for every entry list, the derived `cartQuantity` equals the sum of
the `quantity` fields over all entries (0 for the empty list); it is a pure
function of the entries list. -/
theorem total_correctness (l : List CartItem) :
    cartQuantity l = (l.map CartItem.quantity).sum := by
  unfold cartQuantity
  rw [cartQuantity_foldl]
  omega

/-- C7: `removeFromCart i` deletes every entry whose id matches `i`, keeps all
other entries unchanged and in their original relative order (the result is a
sublist of the input containing exactly the non-matching entries), is a no-op
when nothing matches, and on `[{5, 2}, {7, 1}]` removing id 5 yields
`[{7, 1}]` with total 1. -/
theorem remove_behaviour (l : List CartItem) (i : Int) :
    (∀ e ∈ removeFromCart i l, ¬ e.id = i)
    ∧ (removeFromCart i l).Sublist l
    ∧ (∀ e ∈ l, ¬ e.id = i → e ∈ removeFromCart i l)
    ∧ ((∀ e ∈ l, ¬ e.id = i) → removeFromCart i l = l)
    ∧ removeFromCart 5 [⟨5, 2⟩, ⟨7, 1⟩] = [⟨7, 1⟩]
    ∧ cartQuantity (removeFromCart 5 [⟨5, 2⟩, ⟨7, 1⟩]) = 1 := by
  refine ⟨?_, List.filter_sublist l, ?_, fun h => filter_no_match h,
    by decide, by decide⟩
  · intro e he
    have := List.of_mem_filter he
    simpa using this
  · intro e he hne
    exact List.mem_filter.mpr ⟨he, by simpa using hne⟩

/-- Witness for C7: removing an absent id is a no-op on `[{5, 2}]`. -/
theorem remove_behaviour_witness :
    removeFromCart 3 [⟨5, 2⟩] = [⟨5, 2⟩] :=
  (remove_behaviour [⟨5, 2⟩] 3).2.2.2.1 (by decide)

/-- C8: on a list satisfying the invariants, `getItemQuantity` returns the
quantity of the matching entry when one exists and 0 when none does; it is a
total pure function of the list. -/
theorem lookup_getItemQuantity (l : List CartItem) (i : Int) (h : CartInv l) :
    (l.find? (fun item => item.id == i) = none → getItemQuantity l i = 0)
    ∧ (∀ e, l.find? (fun item => item.id == i) = some e →
        getItemQuantity l i = e.quantity) := by
  constructor
  · intro hf
    unfold getItemQuantity
    rw [hf]
  · intro e hf
    unfold getItemQuantity
    rw [hf]
    have h1 : 1 ≤ e.quantity := h.2 e (List.mem_of_find?_eq_some hf)
    have h2 : (e.quantity == 0) = false := by
      simp
      omega
    show (if (e.quantity == 0) = true then 0 else e.quantity) = e.quantity
    rw [h2]
    simp

/-- Witness for C8 on the cart `[{5, 2}]`: absent id 99 gives 0, id 5 gives 2. -/
theorem lookup_getItemQuantity_witness :
    getItemQuantity [⟨5, 2⟩] 99 = 0 ∧ getItemQuantity [⟨5, 2⟩] 5 = 2 :=
  ⟨(lookup_getItemQuantity [⟨5, 2⟩] 99 (by decide)).1 (by decide),
   (lookup_getItemQuantity [⟨5, 2⟩] 5 (by decide)).2 ⟨5, 2⟩ (by decide)⟩

/-- C9: each mutation keeps the non-matching entries unchanged and in their
original relative order; increase of an absent id appends the new entry at
the end, and increase of a present id changes no entry's position (the id
sequence is unchanged). -/
theorem order_preservation (l : List CartItem) (i : Int) :
    (increaseCartQuantity i l).filter (fun item => !(item.id == i))
        = l.filter (fun item => !(item.id == i))
    ∧ (decreaseCartQuantity i l).filter (fun item => !(item.id == i))
        = l.filter (fun item => !(item.id == i))
    ∧ (removeFromCart i l).filter (fun item => !(item.id == i))
        = l.filter (fun item => !(item.id == i))
    ∧ (l.find? (fun item => item.id == i) = none →
        increaseCartQuantity i l = l ++ [{ id := i, quantity := 1 }])
    ∧ (∀ e, l.find? (fun item => item.id == i) = some e →
        (increaseCartQuantity i l).map CartItem.id = l.map CartItem.id) := by
  have hfilfil : ∀ m : List CartItem,
      (m.filter (fun item => !(item.id == i))).filter (fun item => !(item.id == i))
        = m.filter (fun item => !(item.id == i)) := by
    intro m
    rw [List.filter_filter]
    exact List.filter_congr (fun a _ => by by_cases hc : a.id = i <;> simp [hc])
  refine ⟨?_, ?_, hfilfil l, fun hf => increase_of_none hf, ?_⟩
  · cases hf : l.find? (fun item => item.id == i) with
    | none =>
      rw [increase_of_none hf, List.filter_append]
      simp
    | some e =>
      rw [increase_of_some hf]
      exact filter_nonmatch_map i _ (inc_fun_id i)
        (fun a ha => by simp [ha]) l
  · by_cases hone : (l.find? (fun item => item.id == i)).map CartItem.quantity = some 1
    · rw [decrease_of_one hone]
      exact hfilfil l
    · rw [decrease_of_not_one hone]
      exact filter_nonmatch_map i _ (dec_fun_id i)
        (fun a ha => by simp [ha]) l
  · intro e hf
    rw [increase_of_some hf]
    exact map_pres_ids _ (inc_fun_id i) l

/-- Witness for C9: increasing absent id 9 on `[{5, 2}]` appends `{9, 1}`,
and increasing present id 5 keeps the id sequence `[5]`. -/
theorem order_preservation_witness :
    increaseCartQuantity 9 [⟨5, 2⟩] = [⟨5, 2⟩] ++ [{ id := 9, quantity := 1 }]
    ∧ (increaseCartQuantity 5 [⟨5, 2⟩]).map CartItem.id
        = ([⟨5, 2⟩] : List CartItem).map CartItem.id :=
  ⟨(order_preservation [⟨5, 2⟩] 9).2.2.2.1 (by decide),
   (order_preservation [⟨5, 2⟩] 5).2.2.2.2 ⟨5, 2⟩ (by decide)⟩

/-- C10: when the list contains a (malformed) entry with quantity 0 for the
looked-up id, `getItemQuantity` returns 0 — indistinguishable from the entry
being absent — while a negative stored quantity is returned as-is. -/
theorem falsy_zero_lookup (l : List CartItem) (i : Int) (e : CartItem)
    (hf : l.find? (fun item => item.id == i) = some e) :
    (e.quantity = 0 → getItemQuantity l i = 0)
    ∧ (e.quantity < 0 → getItemQuantity l i = e.quantity) := by
  constructor
  · intro h0
    unfold getItemQuantity
    rw [hf]
    simp [h0]
  · intro hneg
    unfold getItemQuantity
    rw [hf]
    have h2 : (e.quantity == 0) = false := by
      simp
      omega
    show (if (e.quantity == 0) = true then 0 else e.quantity) = e.quantity
    rw [h2]
    simp

/-- Witness for C10: a stored zero quantity reads as 0, a stored negative
quantity reads back unchanged. -/
theorem falsy_zero_lookup_witness :
    getItemQuantity [⟨5, 0⟩] 5 = 0 ∧ getItemQuantity [⟨5, -3⟩] 5 = -3 :=
  ⟨(falsy_zero_lookup [⟨5, 0⟩] 5 ⟨5, 0⟩ (by decide)).1 (by decide),
   (falsy_zero_lookup [⟨5, -3⟩] 5 ⟨5, -3⟩ (by decide)).2 (by decide)⟩
